import Mathlib

/-!
Verification development for the string analysis and filtering service.

The repository holds two near-duplicate implementations of the same HTTP
service: src/src/index.js (suffix Js below) and src/unnamed/part_000
(suffix P0 below).  Both store submitted strings in an in-memory map keyed
by a sha256 digest of the trimmed value, compute derived properties, and
offer structured and natural-language filtering.  JavaScript strings are
embedded as List Char; the sha256 hex digest is abstracted as a parameter
hash : List Char -> Nat (the development never relies on properties of the
digest beyond it being a deterministic function; demoHash below is a
concrete injective stand-in used for evaluation).  Timestamps
(new Date().toISOString()) are external inputs modelled as a Nat argument.
-/

/-- ASCII lowercasing of one character, embedding the effect of
String.prototype.toLowerCase on the ASCII inputs used throughout the
service (the model does not cover non-ASCII case mapping). -/
def charToLower (c : Char) : Char :=
  if 'A' ≤ c ∧ c ≤ 'Z' then Char.ofNat (c.toNat + 32) else c

/-- Lowercasing of a JavaScript string. -/
def listToLower (l : List Char) : List Char := l.map charToLower

/-- Whitespace test used by String.prototype.trim and the regex class
backslash-s (restricted to the common ASCII whitespace characters). -/
def isWsJs (c : Char) : Bool := c == ' ' || c == '\t' || c == '\n' || c == '\r'

/-- Embedding of value.trim(): strip leading and trailing whitespace. -/
def trimL (l : List Char) : List Char :=
  ((l.dropWhile isWsJs).reverse.dropWhile isWsJs).reverse

/-- Embedding of lower === lower.split(TT).reverse().join(TT), the
palindrome test computed in both POST /strings handlers
(src/src/index.js line 30, src/unnamed/part_000 line 36). -/
def isPalindromeJs (l : List Char) : Bool :=
  let lower := listToLower l
  lower == lower.reverse

/-- One step of the character-frequency loop: charFreq[ch] =
(charFreq[ch] || 0) + 1.  An existing key keeps its position and its
count is incremented; a new key is appended at the end, matching
JavaScript object insertion order. -/
def bump (c : Char) : List (Char × Nat) → List (Char × Nat)
  | [] => [(c, 1)]
  | (k, n) :: rest => if k == c then (k, n + 1) :: rest else (k, n) :: bump c rest

/-- The character frequency map built by iterating over the trimmed
string (src/src/index.js lines 32-37, src/unnamed/part_000 lines 38-41). -/
def charFreq (l : List Char) : List (Char × Nat) :=
  l.foldl (fun acc c => bump c acc) []

/-- One step of JavaScript Set insertion: a member already present is
ignored, a new member is appended. -/
def insertIfAbsent (ks : List Char) (c : Char) : List Char :=
  if c ∈ ks then ks else ks ++ [c]

/-- Embedding of new Set(str).size (src/unnamed/part_000 line 48); the
uniqueChars set built in the loop of src/src/index.js lines 33-36 has the
same value. -/
def jsSetSize (l : List Char) : Nat :=
  (l.foldl insertIfAbsent []).length

/-- Number of maximal non-whitespace runs, embedding
str.split(regex backslash-s-plus).filter(Boolean).length
(src/src/index.js line 39, src/unnamed/part_000 line 43).  The Bool
argument records whether the previous character was part of a word. -/
def wordCountAux : Bool → List Char → Nat
  | _, [] => 0
  | inWord, c :: cs =>
    if isWsJs c then wordCountAux false cs
    else (if inWord then 0 else 1) + wordCountAux true cs

/-- Word count of a string. -/
def wordCount (l : List Char) : Nat := wordCountAux false l

/-- Derived properties of a stored string.  src/src/index.js spells the
palindrome field is_palidrome; the spec treats that as a naming bug and
standardizes on is_palindrome, which this model follows for both
implementations (the computed value is identical). -/
structure Properties where
  length : Nat
  is_palindrome : Bool
  unique_characters : Nat
  word_count : Nat
  sha256_hash : Nat
  character_frequency_map : List (Char × Nat)
deriving DecidableEq

/-- A stored record, as assembled by the POST /strings handlers. -/
structure StringRecord where
  id : Nat
  value : List Char
  properties : Properties
  created_at : Nat
deriving DecidableEq

/-- The property computation performed by both POST /strings handlers on
the trimmed value (src/src/index.js lines 29-48, src/unnamed/part_000
lines 35-52). -/
def mkProperties (hash : List Char → Nat) (str : List Char) : Properties :=
  { length := str.length
    is_palindrome := isPalindromeJs str
    unique_characters := jsSetSize str
    word_count := wordCount str
    sha256_hash := hash str
    character_frequency_map := charFreq str }

/-- The in-memory store: a Map from digest to record, embedded as an
association list in insertion order. -/
abbrev Store := List (Nat × StringRecord)

/-- Map.prototype.get, first (and in our use only) binding of the key. -/
def mapGet (k : Nat) (m : Store) : Option StringRecord :=
  ((m.find? (fun p => p.1 == k)).map Prod.snd)

/-- Map.prototype.set for a key not yet present: append the binding. -/
def mapSet (k : Nat) (v : StringRecord) (m : Store) : Store :=
  m ++ [(k, v)]

/-- Outcome of a POST /strings request: HTTP status and the JSON body
when it carries a record. -/
structure PostResult where
  status : Nat
  record : Option StringRecord
deriving DecidableEq

/-- The POST /strings handler, identical in both implementations for
string-typed input (src/src/index.js lines 16-60, src/unnamed/part_000
lines 15-63): trim, reject empty, hash, reject duplicates with 409,
otherwise build the record, store it and answer 201.  The missing-value
and non-string branches (400/422) precede this logic in the source and
are outside the string-typed model. -/
def postStrings (hash : List Char → Nat) (store : Store) (value : List Char)
    (now : Nat) : PostResult × Store :=
  let str := trimL value
  if str = [] then (⟨400, none⟩, store)
  else
    let h := hash str
    match mapGet h store with
    | some _ => (⟨409, none⟩, store)
    | none =>
      let obj : StringRecord := ⟨h, str, mkProperties hash str, now⟩
      (⟨201, some obj⟩, mapSet h obj store)

/-- Outcome of a GET /strings/:value request. -/
structure GetResp where
  status : Nat
  record : Option StringRecord
deriving DecidableEq

/-- The GET /strings/:value handler of src/unnamed/part_000 lines 66-85:
trim, reject empty with 400, look up the digest, 404 when absent,
otherwise 200 with the record. -/
def getStringsP0 (hash : List Char → Nat) (store : Store) (value : List Char) : GetResp :=
  let str := trimL value
  if str = [] then ⟨400, none⟩
  else
    match mapGet (hash str) store with
    | none => ⟨404, none⟩
    | some r => ⟨200, some r⟩

/-- The GET /strings/:value handler of src/src/index.js lines 62-75: it
never tests the lookup result and always answers
res.status(200).json(stored), so an absent fingerprint still yields
status 200 with an empty body. -/
def getStringsJs (hash : List Char → Nat) (store : Store) (value : List Char) : GetResp :=
  let str := trimL value
  if str = [] then ⟨400, none⟩
  else ⟨200, mapGet (hash str) store⟩

/-- Concrete stand-in for the sha256 hex digest: an injective encoding of
the character list, matching the collision-freeness the source assumes of
sha256. -/
def demoHash (l : List Char) : Nat :=
  l.foldl (fun a c => a * 1114112 + c.toNat) 1

/-- Lookup of props.character_frequency_map[c]: the stored count, with the
JavaScript undefined (absent key) collapsing to 0, which is falsy exactly
like undefined in the truthiness tests of the matchers. -/
def freqLookup (c : Char) (m : List (Char × Nat)) : Nat :=
  ((m.find? (fun p => p.1 == c)).map Prod.snd).getD 0

/-- Raw query parameters of GET /strings, each absent or a string.  The
field spelled is_palindrome here is named is_palidrome in the query
interface of src/src/index.js. -/
structure QueryParams where
  is_palindrome : Option String := none
  min_length : Option String := none
  max_length : Option String := none
  word_count : Option String := none
  contains_character : Option String := none

/-- Leading decimal digits converted to a number. -/
def digitsToNat (l : List Char) : Nat :=
  l.foldl (fun a c => a * 10 + (c.toNat - 48)) 0

/-- Embedding of parseInt on the inputs the handlers feed it: optional
leading whitespace and sign followed by decimal digits; none models NaN.
(The hexadecimal and exotic forms parseInt also accepts never reach the
handlers past their validation and are outside the model.) -/
def parseIntJs (l : List Char) : Option Int :=
  let l := l.dropWhile isWsJs
  match l with
  | '-' :: r =>
    let ds := r.takeWhile Char.isDigit
    if ds = [] then none else some (-(digitsToNat ds : Int))
  | '+' :: r =>
    let ds := r.takeWhile Char.isDigit
    if ds = [] then none else some ((digitsToNat ds : Int))
  | _ =>
    let ds := l.takeWhile Char.isDigit
    if ds = [] then none else some ((digitsToNat ds : Int))

/-- The expression p ? parseInt(p) : null applied to an optional string
parameter: an absent or empty (falsy) parameter imposes no value. -/
def jsIntParam (o : Option String) : Option Int :=
  match o with
  | none => none
  | some s => if s.data = [] then none else parseIntJs s.data

/-- The expression contains_character || null: an absent or empty
parameter imposes no value; a present parameter has been validated to one
character, kept here as that character. -/
def jsCharParam (o : Option String) : Option Char :=
  match o with
  | none => none
  | some s => s.data.head?

/-- The filters object built by the GET /strings handler of
src/unnamed/part_000 lines 107-113: every predicate is optional and an
absent query parameter leaves it unset. -/
structure FilterSet where
  is_palindrome : Option Bool := none
  min_length : Option Int := none
  max_length : Option Int := none
  word_count : Option Int := none
  contains_character : Option Char := none
deriving DecidableEq

/-- Construction of the FilterSet from the query parameters
(src/unnamed/part_000 lines 107-113); in particular is_palindrome is
undefined when the parameter is absent. -/
def buildFiltersP0 (q : QueryParams) : FilterSet :=
  { is_palindrome := q.is_palindrome.map (fun s => listToLower s.data == "true".data)
    min_length := jsIntParam q.min_length
    max_length := jsIntParam q.max_length
    word_count := jsIntParam q.word_count
    contains_character := jsCharParam q.contains_character }

/-- The filters object built by the GET /strings/ handler of
src/src/index.js lines 88-94.  Its palindrome entry is the expression
is_palidrome?.toLowerCase() === (the string true), which is the boolean
false - not undefined - whenever the parameter is absent. -/
structure FiltersJs where
  is_palidrome : Bool := false
  min_length : Option Int := none
  max_length : Option Int := none
  word_count : Option Int := none
  contains_character : Option Char := none
deriving DecidableEq

/-- Construction of the filters object in src/src/index.js lines 88-94. -/
def buildFiltersJs (q : QueryParams) : FiltersJs :=
  { is_palidrome :=
      match q.is_palindrome with
      | some s => listToLower s.data == "true".data
      | none => false
    min_length := jsIntParam q.min_length
    max_length := jsIntParam q.max_length
    word_count := jsIntParam q.word_count
    contains_character := jsCharParam q.contains_character }

/-- The filter predicate of the GET /strings handler of
src/unnamed/part_000 lines 115-125: a sequence of early-return guards,
one per present predicate, combined conjunctively. -/
def matchesP0 (filters : FilterSet) (props : Properties) : Bool :=
  if filters.is_palindrome.any (fun b => props.is_palindrome != b) then false else
  if filters.min_length.any (fun n => decide ((props.length : Int) < n)) then false else
  if filters.max_length.any (fun n => decide (n < (props.length : Int))) then false else
  if filters.word_count.any (fun n => (props.word_count : Int) != n) then false else
  if filters.contains_character.any
      (fun c => freqLookup c props.character_frequency_map == 0) then false else
  true

/-- Test that pat is an initial segment of l. -/
def startsWithL : List Char → List Char → Bool
  | [], _ => true
  | _ :: _, [] => false
  | p :: ps, c :: cs => p == c && startsWithL ps cs

/-- Drop the pattern pat when it heads l, embedding one literal piece of a
regular expression. -/
def dropPat (pat l : List Char) : Option (List Char) :=
  if startsWithL pat l then some (l.drop pat.length) else none

/-- Embedding of String.prototype.includes. -/
def isSubstr (pat l : List Char) : Bool :=
  l.tails.any (fun t => startsWithL pat t)

/-- Word-character test of the regex class backslash-w. -/
def isWordChar (c : Char) : Bool := c.isAlpha || c.isDigit || c == '_'

/-- Attempt to match the regex long(er)? than (d+) characters? at the head
of l, returning the captured number.  The optional group er is tried
greedily first, as the regex engine does; the digit run is maximal, which
is exact here because the character after the digits must be a space. -/
def matchLongAt (l : List Char) : Option Nat :=
  match dropPat "long".data l with
  | none => none
  | some r1 =>
    let tail := fun (r : List Char) =>
      match dropPat " than ".data r with
      | none => none
      | some r2 =>
        let ds := r2.takeWhile Char.isDigit
        if ds = [] then none
        else if startsWithL " character".data (r2.drop ds.length) then
          some (digitsToNat ds)
        else none
    match dropPat "er".data r1 with
    | some r2 => (tail r2) <|> (tail r1)
    | none => tail r1

/-- Leftmost match of long(er)? than (d+) characters? in l, embedding
query.match on that regex (both sources). -/
def findLongerThan (l : List Char) : Option Nat :=
  l.tails.findSome? matchLongAt

/-- Attempt to match the regex contains(?: the)? letter (w) at the head of
l, returning the captured word character. -/
def matchContainsAt (l : List Char) : Option Char :=
  match dropPat "contains".data l with
  | none => none
  | some r1 =>
    let tail := fun (r : List Char) =>
      match dropPat " letter ".data r with
      | none => none
      | some [] => none
      | some (c :: _) => if isWordChar c then some c else none
    match dropPat " the".data r1 with
    | some r2 => (tail r2) <|> (tail r1)
    | none => tail r1

/-- Leftmost match of contains(?: the)? letter (w) in l. -/
def findContainsLetter (l : List Char) : Option Char :=
  l.tails.findSome? matchContainsAt

/-- The filters object accumulated by parseNaturalLanguage; in
src/src/index.js the palindrome key is spelled is_palidrome, which the
model keeps under the standard name. -/
structure NLFilters where
  is_palindrome : Option Bool := none
  word_count : Option Nat := none
  min_length : Option Nat := none
  contains_character : Option Char := none
deriving DecidableEq

/-- parseNaturalLanguage of src/unnamed/part_000 lines 135-150: the query
is lowercased, four independent rules each set their own filter, and the
result is null when no rule fired.  The sequential field assignments of
the source touch distinct fields and are written here as one record. -/
def parseNaturalLanguageP0 (query : String) : Option NLFilters :=
  let q := listToLower query.data
  let filters : NLFilters :=
    { is_palindrome :=
        if isSubstr "palindrome".data q || isSubstr "palindromic".data q then
          some true
        else none
      word_count := if isSubstr "single word".data q then some 1 else none
      min_length := (findLongerThan q).map (fun n => n + 1)
      contains_character := findContainsLetter q }
  if filters.is_palindrome.isNone && filters.word_count.isNone &&
      filters.min_length.isNone && filters.contains_character.isNone then none
  else some filters

/-- parseNaturalLanguage of src/src/index.js lines 114-132.  Its first
rule tests the substrings palindromic and palidrome (the latter
misspelled), so a query containing the word palindrome alone fires no
rule.  Its contains rule stores the whole regex match array rather than
the captured group (line 127, filters.contains_character = containsMatch);
only the presence of the match matters to the null check, and the model
keeps the captured character while this comment records the slip. -/
def parseNaturalLanguageJs (query : String) : Option NLFilters :=
  let q := listToLower query.data
  let filters : NLFilters :=
    { is_palindrome :=
        if isSubstr "palindromic".data q || isSubstr "palidrome".data q then
          some true
        else none
      word_count := if isSubstr "single word".data q then some 1 else none
      min_length := (findLongerThan q).map (fun n => n + 1)
      contains_character := findContainsLetter q }
  if filters.is_palindrome.isNone && filters.word_count.isNone &&
      filters.min_length.isNone && filters.contains_character.isNone then none
  else some filters

/-- The predicate of the natural-language listing of src/unnamed/part_000
lines 164-171 (parsed word_count and min_length are the naturals produced
by the translator). -/
def nlMatches (pf : NLFilters) (props : Properties) : Bool :=
  if pf.is_palindrome.any (fun b => props.is_palindrome != b) then false else
  if pf.word_count.any (fun n => props.word_count != n) then false else
  if pf.min_length.any (fun n => decide (props.length < n)) then false else
  if pf.contains_character.any
      (fun c => freqLookup c props.character_frequency_map == 0) then false else
  true

/-- Response of the natural-language endpoint: status and returned
records. -/
structure NLResponse where
  status : Nat
  data : List StringRecord
deriving DecidableEq

/-- Result of evaluating a JavaScript handler that may throw: either a
response or an uncaught exception named by its message. -/
inductive JsEval (α : Type) where
  | ok : α → JsEval α
  | thrown : String → JsEval α
deriving DecidableEq

/-- The GET /strings/filter-by-natural-language handler of
src/unnamed/part_000 lines 153-181: 400 for a missing, empty or
unparseable query, otherwise 200 with the records passing the parsed
filters. -/
def nlHandlerP0 (store : Store) (query : Option String) : NLResponse :=
  match query with
  | none => ⟨400, []⟩
  | some q =>
    if q.data = [] then ⟨400, []⟩
    else
      match parseNaturalLanguageP0 q with
      | none => ⟨400, []⟩
      | some pf => ⟨200, (store.map Prod.snd).filter (fun r => nlMatches pf r.properties)⟩

/-- The GET /strings/filter-by-natural-language handler of
src/src/index.js lines 134-162: after validating the query parameter it
evaluates parseNatural(query) (line 140), but no identifier parseNatural
is defined anywhere in the module (the parser is named
parseNaturalLanguage), so every request that passes validation raises a
ReferenceError instead of producing a response. -/
def nlHandlerJs (_store : Store) (query : Option String) : JsEval NLResponse :=
  match query with
  | none => .ok ⟨400, []⟩
  | some q =>
    if q.data = [] then .ok ⟨400, []⟩
    else .thrown "ReferenceError: parseNatural is not defined"

/-- The filter predicate of the GET /strings/ handler of src/src/index.js
lines 96-105.  Two divergences from the part_000 predicate are faithfully
kept: the guard filters.is_palidrome !== undefined is always true because
that field is always a boolean, and no guard tests word_count at all. -/
def matchesJs (filters : FiltersJs) (props : Properties) : Bool :=
  if props.is_palindrome != filters.is_palidrome then false else
  if filters.min_length.any (fun n => decide ((props.length : Int) < n)) then false else
  if filters.max_length.any (fun n => decide (n < (props.length : Int))) then false else
  if filters.contains_character.any
      (fun c => freqLookup c props.character_frequency_map == 0) then false else
  true

/-- C1: with an empty FilterSet (no query parameters supplied) the
part_000 matcher accepts every property record, so the listing returns
every stored record; the src/src/index.js predicate violates this, since
its filters object defaults is_palidrome to false and therefore excludes
palindromic records even when no parameter was supplied, witnessed on the
record for racecar. -/
theorem emptyFilters_matches_all :
    (∀ props : Properties, matchesP0 (buildFiltersP0 {}) props = true) ∧
    matchesJs (buildFiltersJs {}) (mkProperties demoHash ("racecar".data)) = false :=
  ⟨fun _ => rfl, by decide⟩

/-- C2: when the digest of the trimmed non-empty path value is absent
from the store, the part_000 GET /strings/:value handler answers 404 with
no record; the src/src/index.js handler never tests the lookup and
answers 200 with an empty body, witnessed on an empty store. -/
theorem get_absent_fingerprint :
    (∀ (hash : List Char → Nat) (store : Store) (value : List Char),
      trimL value ≠ [] → mapGet (hash (trimL value)) store = none →
      getStringsP0 hash store value = ⟨404, none⟩) ∧
    getStringsJs demoHash [] ("hello".data) = ⟨200, none⟩ := by
  constructor
  · intro hash store value h1 h2
    simp only [getStringsP0]
    rw [if_neg h1, h2]
  · decide

/-- C2 witness: the 404 branch evaluated at a concrete absent value. -/
theorem get_absent_fingerprint_w :
    getStringsP0 demoHash [] ("hello".data) = ⟨404, none⟩ :=
  get_absent_fingerprint.1 demoHash [] ("hello".data) (by decide) rfl

/-- C3: when the word_count predicate is present with value n, the
part_000 matcher rejects any record whose word_count differs from n; the
src/src/index.js listing predicate never tests word_count, so with the
filter word_count=1 it still accepts the two-word record a b. -/
theorem wordCount_filter_exact :
    (∀ (filters : FilterSet) (props : Properties) (n : Int),
      filters.word_count = some n → (props.word_count : Int) ≠ n →
      matchesP0 filters props = false) ∧
    matchesJs (buildFiltersJs { word_count := some "1" })
      (mkProperties demoHash ("a b".data)) = true := by
  constructor
  · intro filters props n h1 h2
    unfold matchesP0
    rw [h1]
    split
    · rfl
    split
    · rfl
    split
    · rfl
    split
    · rfl
    · rename_i h4
      simp only [Option.any_some, bne_iff_ne, ne_eq, Decidable.not_not] at h4
      exact absurd h4 h2
  · decide

/-- C3 witness: a record with one word rejected by a word_count filter of
three. -/
theorem wordCount_filter_exact_w :
    matchesP0 ({ word_count := some 3 } : FilterSet)
      (mkProperties demoHash ("a".data)) = false :=
  wordCount_filter_exact.1 _ _ 3 rfl (by decide)

/-- C4: any query whose lowercased form contains the substring palindrome
or the substring palindromic is translated by the part_000 parser to a
filter set with is_palindrome true; the src/src/index.js parser instead
tests the substrings palindromic and palidrome (misspelled), so the query
palindrome fires no rule there and translation yields null. -/
theorem palindrome_query_sets_flag :
    (∀ q : String,
      (isSubstr "palindrome".data (listToLower q.data) ||
        isSubstr "palindromic".data (listToLower q.data)) = true →
      ∃ f, parseNaturalLanguageP0 q = some f ∧ f.is_palindrome = some true) ∧
    parseNaturalLanguageJs "palindrome" = none := by
  constructor
  · intro q h
    simp only [parseNaturalLanguageP0, h, if_true, Option.isNone_some,
      Bool.false_and, Bool.if_false_left, Bool.and_false, if_false]
    exact ⟨_, rfl, rfl⟩
  · decide

/-- C4 witness: the flag set on the one-word query palindrome. -/
theorem palindrome_query_sets_flag_w :
    ∃ f, parseNaturalLanguageP0 "palindrome" = some f ∧
      f.is_palindrome = some true :=
  palindrome_query_sets_flag.1 "palindrome" (by decide)

/-- C5: a query matched by the pattern long(er)? than N characters is
translated with min_length set to N plus one, and the sample query
palindromic strings longer than 10 characters yields exactly the filters
is_palindrome true and min_length 11. -/
theorem longer_than_sets_min_length :
    (∀ (q : String) (n : Nat),
      findLongerThan (listToLower q.data) = some n →
      ∃ f, parseNaturalLanguageP0 q = some f ∧ f.min_length = some (n + 1)) ∧
    parseNaturalLanguageP0 "palindromic strings longer than 10 characters" =
      some { is_palindrome := some true, min_length := some 11 } := by
  constructor
  · intro q n h
    simp only [parseNaturalLanguageP0, h, Option.map_some', Option.isNone_some,
      Bool.false_and, Bool.and_false, Bool.if_false_left, if_false]
    exact ⟨_, rfl, rfl⟩
  · decide

/-- C5 witness: the pattern fired at a concrete query. -/
theorem longer_than_sets_min_length_w :
    ∃ f, parseNaturalLanguageP0 "longer than 3 characters" = some f ∧
      f.min_length = some (3 + 1) :=
  longer_than_sets_min_length.1 "longer than 3 characters" 3 (by decide)

/-- C6 counterexample: the query of the spec example does not contain the
literal word contains (its verb is contain), so the regex
contains(?: the)? letter (w) never matches, no rule fires, and
translation yields null rather than a filter set with contains_character
z. -/
theorem contain_letter_query_unparsed :
    parseNaturalLanguageP0 "strings that contain the letter z" = none := by
  decide

/-- C6 amended: a query in which the pattern contains(?: the)? letter c
does match is translated with contains_character set to the captured
character, and the repaired sample query strings that contains the letter
z yields exactly contains_character z. -/
theorem contains_letter_sets_char :
    (∀ (q : String) (c : Char),
      findContainsLetter (listToLower q.data) = some c →
      ∃ f, parseNaturalLanguageP0 q = some f ∧ f.contains_character = some c) ∧
    parseNaturalLanguageP0 "strings that contains the letter z" =
      some { contains_character := some 'z' } := by
  constructor
  · intro q c h
    simp only [parseNaturalLanguageP0, h, Option.isNone_some, Bool.false_and,
      Bool.and_false, Bool.if_false_left, if_false]
    exact ⟨_, rfl, rfl⟩
  · decide

/-- C6 witness: the capture evaluated at a concrete query. -/
theorem contains_letter_sets_char_w :
    ∃ f, parseNaturalLanguageP0 "contains the letter q" = some f ∧
      f.contains_character = some 'q' :=
  contains_letter_sets_char.1 "contains the letter q" 'q' (by decide)

/-- Appending a fresh binding makes it the one found: find? of the
extended list when the key was absent. -/
theorem find?_append_self (k : Nat) (v : StringRecord) (m : Store)
    (h : m.find? (fun p => p.1 == k) = none) :
    (m ++ [(k, v)]).find? (fun p => p.1 == k) = some (k, v) := by
  induction m with
  | nil => simp
  | cons p rest ih =>
    cases hk : (p.1 == k) with
    | true => simp [List.find?_cons, hk] at h
    | false =>
      simp only [List.cons_append, List.find?_cons, hk] at h ⊢
      exact ih h

/-- Map.get after Map.set of an absent key returns the new record. -/
theorem mapGet_set_self (k : Nat) (v : StringRecord) (m : Store)
    (h : mapGet k m = none) : mapGet k (mapSet k v m) = some v := by
  have h0 : m.find? (fun p => p.1 == k) = none := by
    unfold mapGet at h
    cases hf : m.find? (fun p => p.1 == k) with
    | none => rfl
    | some p => rw [hf] at h; simp at h
  unfold mapGet mapSet
  rw [find?_append_self k v m h0]
  rfl

/-- C7: inserting a value whose trimmed form is non-empty and whose
digest is absent answers 201 with the new record and stores it; a second
insert of the same trimmed string answers 409 and leaves the store
unchanged, with the original record still bound to the digest. -/
theorem insert_twice_conflict (hash : List Char → Nat) (store : Store)
    (value value2 : List Char) (now now2 : Nat)
    (h1 : trimL value ≠ []) (h2 : mapGet (hash (trimL value)) store = none)
    (h3 : trimL value2 = trimL value) :
    postStrings hash store value now =
      (⟨201, some ⟨hash (trimL value), trimL value,
          mkProperties hash (trimL value), now⟩⟩,
        mapSet (hash (trimL value))
          ⟨hash (trimL value), trimL value, mkProperties hash (trimL value), now⟩
          store) ∧
    postStrings hash (postStrings hash store value now).2 value2 now2 =
      (⟨409, none⟩, (postStrings hash store value now).2) ∧
    mapGet (hash (trimL value)) (postStrings hash store value now).2 =
      some ⟨hash (trimL value), trimL value, mkProperties hash (trimL value), now⟩ := by
  have hfirst : postStrings hash store value now =
      (⟨201, some ⟨hash (trimL value), trimL value,
          mkProperties hash (trimL value), now⟩⟩,
        mapSet (hash (trimL value))
          ⟨hash (trimL value), trimL value, mkProperties hash (trimL value), now⟩
          store) := by
    simp only [postStrings]
    rw [if_neg h1, h2]
  have hget1 : mapGet (hash (trimL value))
      (mapSet (hash (trimL value))
        ⟨hash (trimL value), trimL value, mkProperties hash (trimL value), now⟩
        store) =
      some ⟨hash (trimL value), trimL value, mkProperties hash (trimL value), now⟩ :=
    mapGet_set_self _ _ _ h2
  have hsecond : postStrings hash
      (mapSet (hash (trimL value))
        ⟨hash (trimL value), trimL value, mkProperties hash (trimL value), now⟩
        store) value2 now2 =
      (⟨409, none⟩,
        mapSet (hash (trimL value))
          ⟨hash (trimL value), trimL value, mkProperties hash (trimL value), now⟩
          store) := by
    simp only [postStrings, h3]
    rw [if_neg h1, hget1]
  refine ⟨hfirst, ?_, ?_⟩
  · rw [hfirst]
    exact hsecond
  · rw [hfirst]
    exact hget1

/-- C7 witness: the second insert of the same trimmed string, evaluated
on an initially empty store, answers 409 and returns the store of the
first insert unchanged. -/
theorem insert_twice_conflict_w :
    postStrings demoHash (postStrings demoHash [] ("Hello World".data) 1).2
      (" Hello World ".data) 2 =
      (⟨409, none⟩, (postStrings demoHash [] ("Hello World".data) 1).2) :=
  (insert_twice_conflict demoHash [] ("Hello World".data) (" Hello World ".data)
    1 2 (by decide) rfl (by decide)).2.1

/-- C8: the stored is_palindrome property is true exactly when the
lowercased value equals its own character reversal, for every non-empty
trimmed input. -/
theorem is_palindrome_iff_reverse (hash : List Char → Nat) (s : List Char)
    (_h1 : s ≠ []) (_h2 : trimL s = s) :
    ((mkProperties hash s).is_palindrome = true ↔
      (listToLower s).reverse = listToLower s) := by
  show isPalindromeJs s = true ↔ _
  unfold isPalindromeJs
  simp only [beq_iff_eq]
  exact eq_comm

/-- C8 witness: the property evaluated on Racecar, a case-insensitive
palindrome. -/
theorem is_palindrome_iff_reverse_w :
    ((mkProperties demoHash ("Racecar".data)).is_palindrome = true ↔
      (listToLower ("Racecar".data)).reverse = listToLower ("Racecar".data)) :=
  is_palindrome_iff_reverse demoHash ("Racecar".data) (by decide) (by decide)

/-- C9: the part_000 natural-language handler is a total function
answering 200 or 400 on every store and query, so the core never raises
an uncontrolled fault there; the src/src/index.js handler instead throws
a ReferenceError on every validated query because it calls the undefined
identifier parseNatural. -/
theorem nl_endpoint_total_or_throws :
    (∀ (store : Store) (query : Option String),
      (nlHandlerP0 store query).status = 200 ∨
        (nlHandlerP0 store query).status = 400) ∧
    nlHandlerJs [] (some "palindrome") =
      .thrown "ReferenceError: parseNatural is not defined" := by
  constructor
  · intro store query
    cases query with
    | none => right; rfl
    | some q =>
      simp only [nlHandlerP0]
      by_cases hq : q.data = []
      · rw [if_pos hq]; right; rfl
      · rw [if_neg hq]
        cases hp : parseNaturalLanguageP0 q with
        | none => right; rfl
        | some pf => left; rfl
  · decide

/-- Incrementing one character adds exactly one to the total count. -/
theorem bump_snd_sum (c : Char) (m : List (Char × Nat)) :
    ((bump c m).map Prod.snd).sum = ((m.map Prod.snd)).sum + 1 := by
  induction m with
  | nil => simp [bump]
  | cons p rest ih =>
    obtain ⟨k, n⟩ := p
    simp only [bump]
    split
    · simp only [List.map_cons, List.sum_cons]
      omega
    · simp only [List.map_cons, List.sum_cons, ih]
      omega

/-- The keys after a bump are the old keys with the character inserted if
absent. -/
theorem bump_fst (c : Char) (m : List (Char × Nat)) :
    (bump c m).map Prod.fst = insertIfAbsent (m.map Prod.fst) c := by
  induction m with
  | nil => simp [bump, insertIfAbsent]
  | cons p rest ih =>
    obtain ⟨k, n⟩ := p
    simp only [bump]
    split
    · rename_i hk
      have hk2 : k = c := by simpa using hk
      subst hk2
      simp [insertIfAbsent]
    · rename_i hk
      have hk2 : ¬ k = c := by simpa using hk
      have hck : ¬ c = k := fun h => hk2 h.symm
      simp only [List.map_cons, ih, insertIfAbsent, List.mem_cons]
      by_cases hc : c ∈ rest.map Prod.fst
      · simp [hc, hck]
      · simp [hc, hck]

/-- A bump keeps every count positive. -/
theorem bump_pos (c : Char) (m : List (Char × Nat))
    (h : ∀ p ∈ m, 0 < p.2) : ∀ p ∈ bump c m, 0 < p.2 := by
  induction m with
  | nil =>
    intro p hp
    simp only [bump, List.mem_singleton] at hp
    subst hp
    exact Nat.one_pos
  | cons q rest ih =>
    obtain ⟨k, n⟩ := q
    intro p hp
    simp only [bump] at hp
    split at hp
    · rcases List.mem_cons.mp hp with h1 | h1
      · subst h1; exact Nat.succ_pos n
      · exact h p (List.mem_cons_of_mem _ h1)
    · rcases List.mem_cons.mp hp with h1 | h1
      · subst h1; exact h (k, n) (List.mem_cons_self _ _)
      · exact ih (fun q hq => h q (List.mem_cons_of_mem _ hq)) p h1

/-- Total count of the frequency fold: each character contributes one. -/
theorem charFreqAux_sum (l : List Char) :
    ∀ acc : List (Char × Nat),
      ((l.foldl (fun acc c => bump c acc) acc).map Prod.snd).sum =
        ((acc.map Prod.snd)).sum + l.length := by
  induction l with
  | nil => intro acc; simp
  | cons c cs ih =>
    intro acc
    simp only [List.foldl_cons, ih, bump_snd_sum, List.length_cons]
    omega

/-- Keys of the frequency fold coincide with the set-insertion fold on
keys. -/
theorem charFreqAux_fst (l : List Char) :
    ∀ acc, (l.foldl (fun acc c => bump c acc) acc).map Prod.fst =
      l.foldl insertIfAbsent (acc.map Prod.fst) := by
  induction l with
  | nil => intro acc; simp
  | cons c cs ih =>
    intro acc
    simp only [List.foldl_cons, ih, bump_fst]

/-- Counts of the frequency fold stay positive. -/
theorem charFreqAux_pos (l : List Char) :
    ∀ acc, (∀ p ∈ acc, 0 < p.2) →
      ∀ p ∈ l.foldl (fun acc c => bump c acc) acc, 0 < p.2 := by
  induction l with
  | nil => intro acc h; simpa using h
  | cons c cs ih =>
    intro acc h
    simp only [List.foldl_cons]
    exact ih _ (bump_pos c acc h)

/-- Inserting into a duplicate-free list keeps it duplicate-free. -/
theorem insertIfAbsent_nodup (ks : List Char) (c : Char) (h : ks.Nodup) :
    (insertIfAbsent ks c).Nodup := by
  unfold insertIfAbsent
  split
  · exact h
  · rename_i hc
    simp [List.nodup_append, h, hc]

/-- The set-insertion fold keeps the key list duplicate-free. -/
theorem foldl_insertIfAbsent_nodup (l : List Char) :
    ∀ ks, ks.Nodup → (l.foldl insertIfAbsent ks).Nodup := by
  induction l with
  | nil => intro ks h; simpa using h
  | cons c cs ih =>
    intro ks h
    simp only [List.foldl_cons]
    exact ih _ (insertIfAbsent_nodup ks c h)

/-- C10: for any non-empty trimmed input, unique_characters equals the
number of keys of character_frequency_map, those keys are pairwise
distinct (so it is the number of distinct keys), every stored count is at
least one, and the counts sum to the length property. -/
theorem freq_map_invariants (hash : List Char → Nat) (s : List Char)
    (_h1 : s ≠ []) (_h2 : trimL s = s) :
    (mkProperties hash s).unique_characters =
      ((mkProperties hash s).character_frequency_map.map Prod.fst).length ∧
    ((mkProperties hash s).character_frequency_map.map Prod.fst).Nodup ∧
    (∀ p ∈ (mkProperties hash s).character_frequency_map, 1 ≤ p.2) ∧
    ((mkProperties hash s).character_frequency_map.map Prod.snd).sum =
      (mkProperties hash s).length := by
  refine ⟨?_, ?_, ?_, ?_⟩
  · show jsSetSize s = (((charFreq s).map Prod.fst)).length
    simp only [charFreq, jsSetSize]
    rw [charFreqAux_fst]
    simp
  · show (((charFreq s).map Prod.fst)).Nodup
    simp only [charFreq]
    rw [charFreqAux_fst]
    exact foldl_insertIfAbsent_nodup s [] List.nodup_nil
  · show ∀ p ∈ charFreq s, 1 ≤ p.2
    exact charFreqAux_pos s [] (by simp)
  · show (((charFreq s).map Prod.snd)).sum = s.length
    simp only [charFreq]
    rw [charFreqAux_sum]
    simp

/-- C10 witness: the invariants evaluated on hello world; the counts sum
to the length there. -/
theorem freq_map_invariants_w :
    ((mkProperties demoHash ("hello world".data)).character_frequency_map.map
      Prod.snd).sum = (mkProperties demoHash ("hello world".data)).length :=
  (freq_map_invariants demoHash ("hello world".data) (by decide) (by decide)).2.2.2
